import Mathlib

/-!
Shallow embedding of the driver-resolution core of `archlinux-driver-manager`
(files `src/data/input_file.rs`, `src/data/database.rs`,
`src/actions/generate_database.rs`, `src/actions/list.rs`,
`src/actions/search.rs`, `src/actions/install.rs`), together with theorems
settling the behavioural claims about matching, tag filtering, index
generation, surrogate-id assignment, storage errors and install selection.

Integer conventions: Rust `u16`/`u32`/`usize` values are carried as `Nat`;
reductions `% 2 ^ 16`, `% 2 ^ 32`, `% 2 ^ 64` are applied exactly where the
Rust arithmetic can wrap.  Rust `BTreeSet` values are carried as `List`s in
iteration (ascending) order where the order matters, and converted to
`Finset` where only set contents matter.
-/

namespace Adm

/-- `PciId` from `src/data/database.rs` (fields are `u16`). -/
structure PciId where
  vendor : Nat
  device : Nat
deriving DecidableEq, Repr, Ord

/-- `UsbId` from `src/data/database.rs` (fields are `u16`). -/
structure UsbId where
  vendor : Nat
  device : Nat
deriving DecidableEq, Repr, Ord

/-- `HardwareId` from `src/data/database.rs`: a tagged PCI or USB identifier. -/
inductive HardwareId where
  | pci (id : PciId)
  | usb (id : UsbId)
deriving DecidableEq, Repr, Ord

/-- `HardwareKind` from `src/data/input_file.rs`: closed enumeration of the
four supported hardware categories. -/
inductive HardwareKind where
  | Graphics
  | Ethernet
  | Wireless
  | Audio
deriving DecidableEq, Repr, Ord

/-- The `Display` implementation for `HardwareKind` in `src/data/input_file.rs`
(lowercase names); used by the index builder as the bucket key for a kind. -/
def HardwareKind.displayString : HardwareKind → String
  | .Graphics => "graphics"
  | .Ethernet => "ethernet"
  | .Wireless => "wireless"
  | .Audio => "audio"

/-- `PciIdList` from `src/data/input_file.rs`: one vendor with a set of device
codes (the `devices` list carries the `BTreeSet<u16>` in ascending order). -/
structure PciIdList where
  vendor : Nat
  devices : List Nat
deriving DecidableEq, Repr

/-- `UsbIdList` from `src/data/input_file.rs`. -/
structure UsbIdList where
  vendor : Nat
  devices : List Nat
deriving DecidableEq, Repr

/-- `HardwareListInner` from `src/data/input_file.rs`: one inner matcher of an
`Each` group, either PCI or USB. -/
inductive HardwareListInner where
  | pci (l : PciIdList)
  | usb (l : UsbIdList)
deriving DecidableEq, Repr

/-- `HardwareList` from `src/data/input_file.rs`: the hardware matcher of a
setup. -/
inductive HardwareList where
  | Each (inner : List HardwareListInner)
  | Pci (l : PciIdList)
  | Usb (l : UsbIdList)
deriving DecidableEq, Repr

/-- `ScriptKind` from `src/data/input_file.rs`. -/
inductive ScriptKind where
  | Python
  | JavaScript
  | Shell
deriving DecidableEq, Repr

/-- `Script` from `src/data/input_file.rs` (the `PathBuf` is carried as a
string). -/
structure Script where
  path : String
  language : ScriptKind
deriving DecidableEq, Repr

/-- `DriverOption` from `src/data/input_file.rs`. -/
structure DriverOption where
  order_of_priority : Nat
  name : String
  description : String
  tags : List String
  pre_install : Option Script
  packages : List String
  post_install : Option Script
deriving DecidableEq, Repr

/-- `HardwareSetup` from `src/data/input_file.rs`.  `driver_options` carries
the `BTreeSet<DriverOption>` in its iteration (ascending) order. -/
structure HardwareSetup where
  name : String
  description : String
  hardware_kind : HardwareKind
  hardware_list : HardwareList
  driver_options : List DriverOption
deriving DecidableEq, Repr

/-- `HardwareList::matches_with_hardware_ids` from `src/data/input_file.rs`:
`Pci`/`Usb` match when any listed device of the vendor is present; `Each`
matches when every inner matcher has at least one listed device present. -/
def HardwareList.matches_with_hardware_ids
    (hl : HardwareList) (hardware_ids : List HardwareId) : Bool :=
  match hl with
  | .Each hardware_lists_inner =>
    hardware_lists_inner.all fun hardware_list_inner =>
      match hardware_list_inner with
      | .pci pci_id_list =>
        pci_id_list.devices.any fun device =>
          hardware_ids.contains (HardwareId.pci ⟨pci_id_list.vendor, device⟩)
      | .usb usb_id_list =>
        usb_id_list.devices.any fun device =>
          hardware_ids.contains (HardwareId.usb ⟨usb_id_list.vendor, device⟩)
  | .Pci pci_id_list =>
    pci_id_list.devices.any fun device =>
      hardware_ids.contains (HardwareId.pci ⟨pci_id_list.vendor, device⟩)
  | .Usb usb_id_list =>
    usb_id_list.devices.any fun device =>
      hardware_ids.contains (HardwareId.usb ⟨usb_id_list.vendor, device⟩)

/-- Rust `Iterator::all` on a mutable iterator: consumes elements until the
predicate fails (returning the iterator positioned after the failing element)
or the iterator is exhausted.  Models the `tags.all(..)` call in
`HardwareSetup::matching_driver_options`, whose `tags` iterator is a single
mutable iterator shared by every invocation of the filter closure. -/
def iterAll (p : α → Bool) : List α → Bool × List α
  | [] => (true, [])
  | x :: xs => if p x then iterAll p xs else (false, xs)

/-- The `.filter(|driver_option| tags.all(..))` pass of
`HardwareSetup::matching_driver_options`: the state of the `tags` iterator is
threaded from one driver option to the next. -/
def filterByTagIter : List DriverOption → List String → List DriverOption
  | [], _ => []
  | o :: os, tags =>
    let r := iterAll (fun tag => o.tags.contains tag) tags
    if r.1 then o :: filterByTagIter os r.2 else filterByTagIter os r.2

/-- `HardwareSetup::matching_driver_options` from `src/data/input_file.rs`:
`None` when the kind filter or the matcher rejects the setup, otherwise the
driver options surviving the tag filter (with the iterator threading of the
source). -/
def HardwareSetup.matching_driver_options (s : HardwareSetup)
    (hardware_ids : List HardwareId) (optional_hardware : Option HardwareKind)
    (tags : List String) : Option (List DriverOption) :=
  match optional_hardware with
  | some hardware_kind =>
    if s.hardware_kind ≠ hardware_kind then none
    else if ¬ s.hardware_list.matches_with_hardware_ids hardware_ids then none
    else some (filterByTagIter s.driver_options tags)
  | none =>
    if ¬ s.hardware_list.matches_with_hardware_ids hardware_ids then none
    else some (filterByTagIter s.driver_options tags)

/-! ### Decimal rendering of surrogate ids and index keys

The index builder turns counters and packed identifiers into strings with
Rust's `to_string()`; the model uses `Nat.repr`.  The following round-trip
shows `Nat.repr` is injective, so distinct numbers yield distinct keys. -/

/-- Numeric value of a decimal digit character. -/
def chVal (c : Char) : Nat := c.toNat - '0'.toNat

/-- Value of a most-significant-first list of decimal digit characters. -/
def digitsVal : List Char → Nat
  | [] => 0
  | c :: cs => chVal c * 10 ^ cs.length + digitsVal cs

theorem chVal_digitChar (r : Nat) (h : r < 10) : chVal (Nat.digitChar r) = r := by
  interval_cases r <;> rfl

theorem digitsVal_toDigitsCore (f : Nat) :
    ∀ n ds, n < f →
      digitsVal (Nat.toDigitsCore 10 f n ds) = n * 10 ^ ds.length + digitsVal ds := by
  induction f with
  | zero => intro n ds h; omega
  | succ f ih =>
    intro n ds h
    rw [Nat.toDigitsCore]
    by_cases h10 : n / 10 = 0
    · simp only [h10, if_pos]
      have hn : n % 10 = n := by omega
      simp [digitsVal, hn, chVal_digitChar n (by omega)]
    · simp only [h10, if_false]
      rw [ih (n / 10) _ (by omega)]
      simp only [digitsVal, List.length_cons, chVal_digitChar (n % 10) (by omega), pow_succ]
      have hd := Nat.div_add_mod n 10
      generalize 10 ^ ds.length = P
      nlinarith [hd]

theorem digitsVal_repr (n : Nat) : digitsVal (Nat.repr n).data = n := by
  show digitsVal (Nat.toDigits 10 n).asString.data = n
  rw [Nat.toDigits]
  show digitsVal (Nat.toDigitsCore 10 (n + 1) n []) = n
  rw [digitsVal_toDigitsCore (n + 1) n [] (by omega)]
  simp [digitsVal]

theorem repr_injective : Function.Injective Nat.repr := by
  intro a b h
  have ha := digitsVal_repr a
  have hb := digitsVal_repr b
  rw [← h] at hb
  omega

/-! ### Index keys for identifiers

`process_pci_id_list` / `process_usb_id_list` in
`src/actions/generate_database.rs` compute the bucket key of a
(vendor, device) pair as `(((vendor as u32) << 16) | (device as u32)).to_string()`.
The `% 2 ^ 16` model the `u16` field types, the `% 2 ^ 32` the `u32` shift. -/

/-- The packed `u32` value `(vendor << 16) | device` of the source. -/
def packU32 (vendor device : Nat) : Nat :=
  (((vendor % 2 ^ 16) <<< 16) % 2 ^ 32) ||| (device % 2 ^ 16)

/-- The bucket key string written for one (vendor, device) pair. -/
def idKey (vendor device : Nat) : String := Nat.repr (packU32 vendor device)

theorem packU32_eq (vendor device : Nat) (hv : vendor < 2 ^ 16)
    (hd : device < 2 ^ 16) : packU32 vendor device = vendor * 2 ^ 16 + device := by
  unfold packU32
  rw [Nat.shiftLeft_eq, Nat.mod_eq_of_lt hv, Nat.mod_eq_of_lt hd]
  rw [Nat.mod_eq_of_lt (by nlinarith)]
  rw [Nat.mul_comm vendor (2 ^ 16), ← Nat.mul_add_lt_is_or hd vendor]

theorem packU32_injOn (v1 d1 v2 d2 : Nat) (hv1 : v1 < 2 ^ 16) (hd1 : d1 < 2 ^ 16)
    (hv2 : v2 < 2 ^ 16) (hd2 : d2 < 2 ^ 16)
    (h : packU32 v1 d1 = packU32 v2 d2) : v1 = v2 ∧ d1 = d2 := by
  rw [packU32_eq v1 d1 hv1 hd1, packU32_eq v2 d2 hv2 hd2] at h
  have h16 : (2 : Nat) ^ 16 = 65536 := by norm_num
  rw [h16] at h hv1 hd1 hv2 hd2
  omega

theorem idKey_injOn (v1 d1 v2 d2 : Nat) (hv1 : v1 < 2 ^ 16) (hd1 : d1 < 2 ^ 16)
    (hv2 : v2 < 2 ^ 16) (hd2 : d2 < 2 ^ 16)
    (h : idKey v1 d1 = idKey v2 d2) : v1 = v2 ∧ d1 = d2 :=
  packU32_injOn v1 d1 v2 d2 hv1 hd1 hv2 hd2 (repr_injective h)

/-! ### Resolver: full scan and index-assisted paths -/

/-- Modelled from the spec: `search_inner` in `src/actions/search.rs` is left
syntactically unfinished in the repository (its resolution loop breaks off in
an `if`), so the resolver's result-collection loop is taken from §4.3 of the
spec (steps 2–4: evaluate every setup through
`HardwareSetup::matching_driver_options` from `src/data/input_file.rs` and
union the surviving options into the entry for the setup's kind).  The
`HashMap<HardwareKind, BTreeSet<DriverOption>>` result is carried as a
function from kinds to finite sets. -/
def resolveFullScan (catalog : List HardwareSetup) (present : List HardwareId)
    (optional_hardware : Option HardwareKind) (tags : List String)
    (k : HardwareKind) : Finset DriverOption :=
  catalog.foldr
    (fun s acc =>
      match s.matching_driver_options present optional_hardware tags with
      | none => acc
      | some opts => if s.hardware_kind = k then opts.toFinset ∪ acc else acc)
    ∅

/-- The index keys this setup's matcher contributes to the
`pci_id_to_hardware_setup_id_bucket` — the flattening performed by
`process_pci_id_list` in `src/actions/generate_database.rs` over the matcher's
PCI groups (both top-level `Pci` matchers and the PCI inner matchers of an
`Each`). -/
def flattenedPciKeys : HardwareList → List String
  | .Pci l => l.devices.map (idKey l.vendor)
  | .Usb _ => []
  | .Each inners =>
    inners.flatMap fun inner =>
      match inner with
      | .pci l => l.devices.map (idKey l.vendor)
      | .usb _ => []

/-- The index keys this setup's matcher contributes to the
`usb_id_to_hardware_setup_id_bucket` (`process_usb_id_list`). -/
def flattenedUsbKeys : HardwareList → List String
  | .Pci _ => []
  | .Usb l => l.devices.map (idKey l.vendor)
  | .Each inners =>
    inners.flatMap fun inner =>
      match inner with
      | .pci _ => []
      | .usb l => l.devices.map (idKey l.vendor)

/-- Modelled from the spec: the candidate test of the index-assisted fast path
(§4.3) — a setup is implicated when some present identifier's bucket key is
among the keys under which the index builder filed the setup.  The bucket
lookup of the unfinished `search_inner` is replaced by key membership in the
setup's flattened key lists. -/
def implicated (present : List HardwareId) (s : HardwareSetup) : Bool :=
  present.any fun id =>
    match id with
    | .pci p => (flattenedPciKeys s.hardware_list).contains (idKey p.vendor p.device)
    | .usb u => (flattenedUsbKeys s.hardware_list).contains (idKey u.vendor u.device)

/-- Modelled from the spec: the index-assisted resolution path (§4.3) — union
the setup ids implicated by the present identifiers' index buckets, then run
steps 2–4 only on that reduced set of setups. -/
def resolveIndexAssisted (catalog : List HardwareSetup) (present : List HardwareId)
    (optional_hardware : Option HardwareKind) (tags : List String)
    (k : HardwareKind) : Finset DriverOption :=
  resolveFullScan (catalog.filter (implicated present)) present optional_hardware tags k

/-- The result of `resolve(present = ∅, kind = None, tags = ∅)` spelled out in
the words of §8 of the spec: the union of the `driver_options` of exactly the
setups of this kind whose matcher is the empty `hardware_list`. -/
def emptyPresentSpecResult (catalog : List HardwareSetup) (k : HardwareKind) :
    Finset DriverOption :=
  ((catalog.filter fun s =>
      s.hardware_kind = k ∧ s.hardware_list = .Each []).flatMap
    (·.driver_options)).toFinset

/-! ### Equivalence of the two resolution paths -/

theorem matching_driver_options_of_not_matches (s : HardwareSetup)
    (present : List HardwareId) (okind : Option HardwareKind) (tags : List String)
    (h : s.hardware_list.matches_with_hardware_ids present = false) :
    s.matching_driver_options present okind tags = none := by
  unfold HardwareSetup.matching_driver_options
  cases okind with
  | none => simp [h]
  | some k =>
    by_cases hk : s.hardware_kind = k <;> simp [h, hk]

theorem implicated_of_matches (s : HardwareSetup) (present : List HardwareId)
    (hne : s.hardware_list ≠ .Each [])
    (h : s.hardware_list.matches_with_hardware_ids present = true) :
    implicated present s = true := by
  unfold HardwareList.matches_with_hardware_ids at h
  unfold implicated
  cases hl : s.hardware_list with
  | Pci l =>
    rw [hl] at h
    simp only [List.any_eq_true] at h ⊢
    obtain ⟨d, hd, hpres⟩ := h
    refine ⟨HardwareId.pci ⟨l.vendor, d⟩, List.mem_of_elem_eq_true hpres, ?_⟩
    show (flattenedPciKeys (HardwareList.Pci l)).contains (idKey l.vendor d) = true
    exact List.elem_eq_true_of_mem (List.mem_map.mpr ⟨d, hd, rfl⟩)
  | Usb l =>
    rw [hl] at h
    simp only [List.any_eq_true] at h ⊢
    obtain ⟨d, hd, hpres⟩ := h
    refine ⟨HardwareId.usb ⟨l.vendor, d⟩, List.mem_of_elem_eq_true hpres, ?_⟩
    show (flattenedUsbKeys (HardwareList.Usb l)).contains (idKey l.vendor d) = true
    exact List.elem_eq_true_of_mem (List.mem_map.mpr ⟨d, hd, rfl⟩)
  | Each inners =>
    rw [hl] at h hne
    cases inners with
    | nil => exact absurd rfl hne
    | cons inner rest =>
      simp only [List.all_cons, Bool.and_eq_true] at h
      obtain ⟨hinner, -⟩ := h
      simp only [List.any_eq_true]
      cases inner with
      | pci l =>
        simp only [List.any_eq_true] at hinner
        obtain ⟨d, hd, hpres⟩ := hinner
        refine ⟨HardwareId.pci ⟨l.vendor, d⟩, List.mem_of_elem_eq_true hpres, ?_⟩
        show (flattenedPciKeys (HardwareList.Each (HardwareListInner.pci l :: rest))).contains
          (idKey l.vendor d) = true
        refine List.elem_eq_true_of_mem (List.mem_flatMap.mpr ?_)
        exact ⟨HardwareListInner.pci l, List.mem_cons_self _ _,
          List.mem_map.mpr ⟨d, hd, rfl⟩⟩
      | usb l =>
        simp only [List.any_eq_true] at hinner
        obtain ⟨d, hd, hpres⟩ := hinner
        refine ⟨HardwareId.usb ⟨l.vendor, d⟩, List.mem_of_elem_eq_true hpres, ?_⟩
        show (flattenedUsbKeys (HardwareList.Each (HardwareListInner.usb l :: rest))).contains
          (idKey l.vendor d) = true
        refine List.elem_eq_true_of_mem (List.mem_flatMap.mpr ?_)
        exact ⟨HardwareListInner.usb l, List.mem_cons_self _ _,
          List.mem_map.mpr ⟨d, hd, rfl⟩⟩

theorem resolveFullScan_filter_implicated (catalog : List HardwareSetup)
    (present : List HardwareId) (okind : Option HardwareKind) (tags : List String)
    (k : HardwareKind)
    (h : ∀ s ∈ catalog, implicated present s = false →
      s.matching_driver_options present okind tags = none) :
    resolveFullScan (catalog.filter (implicated present)) present okind tags k =
      resolveFullScan catalog present okind tags k := by
  induction catalog with
  | nil => rfl
  | cons s rest ih =>
    have hrest : ∀ t ∈ rest, implicated present t = false →
        t.matching_driver_options present okind tags = none := by
      intro t ht; exact h t (List.mem_cons_of_mem _ ht)
    by_cases hs : implicated present s = true
    · simp only [List.filter_cons, hs, if_pos]
      show (match s.matching_driver_options present okind tags with
        | none => resolveFullScan (rest.filter (implicated present)) present okind tags k
        | some opts => if s.hardware_kind = k then
            opts.toFinset ∪ resolveFullScan (rest.filter (implicated present)) present okind tags k
          else resolveFullScan (rest.filter (implicated present)) present okind tags k) = _
      rw [ih hrest]
      rfl
    · have hs' : implicated present s = false := by
        cases hx : implicated present s
        · rfl
        · exact absurd hx hs
      have hnone := h s (List.mem_cons_self _ _) hs'
      simp only [List.filter_cons, hs', Bool.false_eq_true, if_neg, if_false]
      rw [ih hrest]
      show _ = (match s.matching_driver_options present okind tags with
        | none => resolveFullScan rest present okind tags k
        | some opts => if s.hardware_kind = k then
            opts.toFinset ∪ resolveFullScan rest present okind tags k
          else resolveFullScan rest present okind tags k)
      rw [hnone]

/-- A concrete driver option used by the counterexample catalogs. -/
def nvidiaOption : DriverOption :=
  { order_of_priority := 1
    name := "nvidia"
    description := ""
    tags := ["proprietary"]
    pre_install := none
    packages := ["nvidia"]
    post_install := none }

/-- A setup whose matcher is the empty `Each` list: it matches every present
set (`all` over an empty list) yet flattens to no index key. -/
def emptyMatcherSetup : HardwareSetup :=
  { name := "empty"
    description := ""
    hardware_kind := .Graphics
    hardware_list := .Each []
    driver_options := [nvidiaOption] }

/-- C1, counterexample: for the one-setup catalog whose matcher is the empty
`Each` list and the empty present set, the index-assisted path misses the
setup (it is filed under no index key) while the full scan matches it, so the
two result mappings differ at `Graphics`. -/
theorem C1_counterexample :
    resolveIndexAssisted [emptyMatcherSetup] [] none [] .Graphics ≠
      resolveFullScan [emptyMatcherSetup] [] none [] .Graphics := by
  decide

/-- C1 (amended): for every catalog in which no setup carries the empty `Each`
matcher, every present set, every optional kind filter and every tag filter,
the index-assisted resolution path (restricting to the setups implicated by
the present identifiers' index-bucket keys) returns a result mapping
identical to the full-scan path that evaluates every setup's matcher. -/
theorem C1_index_assisted_eq_full_scan (catalog : List HardwareSetup)
    (present : List HardwareId) (okind : Option HardwareKind) (tags : List String)
    (hne : ∀ s ∈ catalog, s.hardware_list ≠ .Each []) :
    ∀ k, resolveIndexAssisted catalog present okind tags k =
      resolveFullScan catalog present okind tags k := by
  intro k
  unfold resolveIndexAssisted
  apply resolveFullScan_filter_implicated
  intro s hs himp
  cases hm : s.hardware_list.matches_with_hardware_ids present with
  | false => exact matching_driver_options_of_not_matches s present okind tags hm
  | true =>
    have := implicated_of_matches s present (hne s hs) hm
    rw [himp] at this
    exact absurd this (by simp)

/-- C1, witness: the amended equivalence applied to a concrete catalog with a
nonempty PCI matcher and a concrete present set. -/
theorem C1_witness :
    resolveIndexAssisted
      [{ name := "nv", description := "", hardware_kind := .Graphics,
         hardware_list := .Pci ⟨0x10de, [0x1381]⟩,
         driver_options := [nvidiaOption] }]
      [.pci ⟨0x10de, 0x1381⟩] none [] .Graphics =
    resolveFullScan
      [{ name := "nv", description := "", hardware_kind := .Graphics,
         hardware_list := .Pci ⟨0x10de, [0x1381]⟩,
         driver_options := [nvidiaOption] }]
      [.pci ⟨0x10de, 0x1381⟩] none [] .Graphics :=
  C1_index_assisted_eq_full_scan _ _ none [] (by decide) .Graphics

/-- C3: an `Each` matcher matches exactly when every inner matcher has at
least one of its (vendor, device) pairs present — AND across inner matchers,
OR within one inner matcher's device list; in particular the hybrid
Pci(0x10de, 0x1381/0x1392) + Usb(0x8086, 0x1234) matcher rejects a present
set holding only Pci(0x10de, 0x1381) and accepts one that also holds
Usb(0x8086, 0x1234). -/
theorem C3_each_matcher_semantics :
    (∀ (inners : List HardwareListInner) (present : List HardwareId),
      HardwareList.matches_with_hardware_ids (.Each inners) present = true ↔
        ∀ inner ∈ inners,
          match inner with
          | .pci l => ∃ d ∈ l.devices, HardwareId.pci ⟨l.vendor, d⟩ ∈ present
          | .usb l => ∃ d ∈ l.devices, HardwareId.usb ⟨l.vendor, d⟩ ∈ present) ∧
    HardwareList.matches_with_hardware_ids
      (.Each [.pci ⟨0x10de, [0x1381, 0x1392]⟩, .usb ⟨0x8086, [0x1234]⟩])
      [.pci ⟨0x10de, 0x1381⟩] = false ∧
    HardwareList.matches_with_hardware_ids
      (.Each [.pci ⟨0x10de, [0x1381, 0x1392]⟩, .usb ⟨0x8086, [0x1234]⟩])
      [.pci ⟨0x10de, 0x1381⟩, .usb ⟨0x8086, 0x1234⟩] = true := by
  refine ⟨?_, by decide, by decide⟩
  intro inners present
  unfold HardwareList.matches_with_hardware_ids
  rw [List.all_eq_true]
  constructor
  · intro h inner hinner
    have := h inner hinner
    cases inner with
    | pci l =>
      simp only [List.any_eq_true] at this
      obtain ⟨d, hd, hc⟩ := this
      exact ⟨d, hd, List.mem_of_elem_eq_true hc⟩
    | usb l =>
      simp only [List.any_eq_true] at this
      obtain ⟨d, hd, hc⟩ := this
      exact ⟨d, hd, List.mem_of_elem_eq_true hc⟩
  · intro h inner hinner
    have := h inner hinner
    cases inner with
    | pci l =>
      obtain ⟨d, hd, hc⟩ := this
      simp only [List.any_eq_true]
      exact ⟨d, hd, List.elem_eq_true_of_mem hc⟩
    | usb l =>
      obtain ⟨d, hd, hc⟩ := this
      simp only [List.any_eq_true]
      exact ⟨d, hd, List.elem_eq_true_of_mem hc⟩

/-! ### Resolution with an empty present set -/

theorem matches_empty_iff (hl : HardwareList) :
    hl.matches_with_hardware_ids [] = true ↔ hl = .Each [] := by
  unfold HardwareList.matches_with_hardware_ids
  cases hl with
  | Pci l => simp [List.any_eq_true, List.contains]
  | Usb l => simp [List.any_eq_true, List.contains]
  | Each inners =>
    cases inners with
    | nil => simp
    | cons inner rest =>
      simp only [List.all_cons, Bool.and_eq_true]
      constructor
      · rintro ⟨h, -⟩
        exfalso
        cases inner <;> simp [List.any_eq_true, List.contains] at h
      · intro h
        exact absurd h (by simp)

theorem filterByTagIter_nil_tags (os : List DriverOption) :
    filterByTagIter os [] = os := by
  induction os with
  | nil => rfl
  | cons o rest ih => simp [filterByTagIter, iterAll, ih]

/-- C6: resolving with the empty present set, no kind filter and the empty tag
filter returns, for each kind, exactly the union of `driver_options` of the
setups of that kind whose matcher accepts the empty identifier set, and a
matcher accepts the empty set exactly when it is the empty `hardware_list`
(`Each []`); setups whose matcher requires a present identifier contribute
nothing. -/
theorem C6_empty_present_resolution :
    (∀ (catalog : List HardwareSetup) (k : HardwareKind),
      resolveFullScan catalog [] none [] k = emptyPresentSpecResult catalog k) ∧
    ∀ hl : HardwareList, hl.matches_with_hardware_ids [] = true ↔ hl = .Each [] := by
  refine ⟨?_, matches_empty_iff⟩
  intro catalog k
  induction catalog with
  | nil => rfl
  | cons s rest ih =>
    show (match s.matching_driver_options [] none [] with
      | none => resolveFullScan rest [] none [] k
      | some opts => if s.hardware_kind = k then
          opts.toFinset ∪ resolveFullScan rest [] none [] k
        else resolveFullScan rest [] none [] k) = _
    unfold emptyPresentSpecResult
    rw [List.filter_cons]
    by_cases hm : s.hardware_list = .Each []
    · have hmt : s.hardware_list.matches_with_hardware_ids [] = true :=
        (matches_empty_iff s.hardware_list).mpr hm
      have hsome : s.matching_driver_options [] none [] =
          some (filterByTagIter s.driver_options []) := by
        unfold HardwareSetup.matching_driver_options
        simp [hmt]
      rw [hsome, filterByTagIter_nil_tags]
      show (if s.hardware_kind = k then
          s.driver_options.toFinset ∪ resolveFullScan rest [] none [] k
        else resolveFullScan rest [] none [] k) = _
      by_cases hk : s.hardware_kind = k
      · have hp : decide (s.hardware_kind = k ∧ s.hardware_list = .Each []) = true := by
          simp [hk, hm]
        rw [if_pos hk, hp, if_pos rfl, List.flatMap_cons, List.toFinset_append, ih]
        unfold emptyPresentSpecResult
        rfl
      · have hp : decide (s.hardware_kind = k ∧ s.hardware_list = .Each []) = false := by
          simp [hk]
        rw [if_neg hk, hp, if_neg (by simp), ih]
        unfold emptyPresentSpecResult
        rfl
    · have hmf : s.hardware_list.matches_with_hardware_ids [] = false := by
        cases hx : s.hardware_list.matches_with_hardware_ids [] with
        | false => rfl
        | true => exact absurd ((matches_empty_iff s.hardware_list).mp hx) hm
      rw [matching_driver_options_of_not_matches s [] none [] hmf]
      have hp : decide (s.hardware_kind = k ∧ s.hardware_list = .Each []) = false := by
        simp [hm]
      rw [hp, if_neg (by simp), ih]
      unfold emptyPresentSpecResult
      rfl

/-! ### Tag filtering: the shared-iterator defect -/

/-- First option (in `BTreeSet` order) of the two-option setup exhibiting the
tag-filter defect; carries no tags. -/
def optUntaggedA : DriverOption :=
  { order_of_priority := 1, name := "a", description := "", tags := [],
    pre_install := none, packages := ["pkg-a"], post_install := none }

/-- Second option of the two-option setup; also carries no tags. -/
def optUntaggedB : DriverOption :=
  { order_of_priority := 2, name := "b", description := "", tags := [],
    pre_install := none, packages := ["pkg-b"], post_install := none }

/-- A setup with a matcher satisfied by `pci 1:2` and the two untagged
options above. -/
def twoOptionSetup : HardwareSetup :=
  { name := "two", description := "", hardware_kind := .Graphics,
    hardware_list := .Pci ⟨1, [2]⟩,
    driver_options := [optUntaggedA, optUntaggedB] }

/-- An option tagged proprietary and stable (the spec's §8 tag example). -/
def optTagged : DriverOption :=
  { order_of_priority := 1, name := "t", description := "",
    tags := ["proprietary", "stable"], pre_install := none,
    packages := ["pkg-t"], post_install := none }

/-- A single-option setup carrying `optTagged`. -/
def taggedSetup : HardwareSetup :=
  { name := "tagged", description := "", hardware_kind := .Graphics,
    hardware_list := .Pci ⟨1, [2]⟩,
    driver_options := [optTagged] }

/-- C2, evaluation at the failing input: because
`HardwareSetup::matching_driver_options` reuses one mutable `tags` iterator
across all options, the filter `beta` consumes the iterator while rejecting
the first untagged option, and the second untagged option is then kept
vacuously even though its tag set does not contain `beta` — refuting "kept if
and only if the option's tags are a superset of the filter".  On a
single-option setup (where the iterator is fresh) the superset behaviour of
the claim does hold, as the three `taggedSetup` conjuncts show. -/
theorem C2_tag_filter_shared_iterator_bug :
    twoOptionSetup.matching_driver_options [.pci ⟨1, 2⟩] none ["beta"] =
      some [optUntaggedB] ∧
    optUntaggedB.tags.contains "beta" = false ∧
    taggedSetup.matching_driver_options [.pci ⟨1, 2⟩] none ["proprietary"] =
      some taggedSetup.driver_options ∧
    taggedSetup.matching_driver_options [.pci ⟨1, 2⟩] none [] =
      some taggedSetup.driver_options ∧
    taggedSetup.matching_driver_options [.pci ⟨1, 2⟩] none ["beta"] = some [] := by
  refine ⟨?_, by decide, ?_, ?_, ?_⟩ <;> decide

/-! ### Index generation (`src/actions/generate_database.rs`)

The jammdb storage engine itself is an external crate; a bucket is carried as
an association from string keys to typed values (the speedy byte codec round
trips values, so values are stored in their typed form).  All other structure
follows `generate_database_inner`. -/

/-- One named bucket: key → value association in insertion layout. -/
abbrev Bucket (α : Type) := List (String × α)

/-- `bucket.get(key)` of the storage engine. -/
def bucketGet (b : Bucket α) (key : String) : Option α :=
  (b.find? fun kv => kv.1 == key).map (·.2)

/-- `bucket.put(key, value)` of the storage engine: replace or append. -/
def bucketPut (b : Bucket α) (key : String) (v : α) : Bucket α :=
  match b with
  | [] => [(key, v)]
  | kv :: rest => if kv.1 == key then (key, v) :: rest else kv :: bucketPut rest key v

/-- `BTreeSet<String>::insert`: sorted set insertion. -/
def strSetInsert (x : String) : List String → List String
  | [] => [x]
  | y :: ys =>
    if x = y then y :: ys
    else if x < y then x :: y :: ys
    else y :: strSetInsert x ys

/-- The read-union-write pattern of `generate_database_inner`: read the set
stored under `key` (empty when absent), insert `id`, write it back. -/
def bucketUnionInsert (b : Bucket (List String)) (key id : String) :
    Bucket (List String) :=
  bucketPut b key (strSetInsert id ((bucketGet b key).getD []))

/-- The seven buckets created by `generate_database_inner`. -/
structure GenDb where
  pci_id_to_hardware_setup_id : Bucket (List String)
  usb_id_to_hardware_setup_id : Bucket (List String)
  hardware_kind_to_hardware_setup_id : Bucket (List String)
  hardware_kind_to_driver_option_id : Bucket (List String)
  hardware_setup_id_to_driver_option_id : Bucket (List String)
  hardware_setup_id_to_hardware_setup : Bucket HardwareSetup
  driver_option_id_to_driver_option : Bucket DriverOption
deriving DecidableEq, Repr

/-- A database file with no buckets yet (fresh file). -/
def emptyGenDb : GenDb := ⟨[], [], [], [], [], [], []⟩

/-- The two `static AtomicUsize` serial counters of
`generate_database_inner` (`HARDWARE_SETUP_SERIAL`, `DRIVER_OPTION_SERIAL`).
Being `static`, they live for the whole process, not for one invocation;
`fetch_add(1)` wraps at `2 ^ 64`. -/
structure GenState where
  hardware_setup_serial : Nat
  driver_option_serial : Nat
deriving DecidableEq, Repr

/-- The counter state at process start: both statics are `AtomicUsize::new(1)`. -/
def processStart : GenState := ⟨1, 1⟩

/-- `process_pci_id_list`: file the setup id under the packed key of every
(vendor, device) pair of the group. -/
def process_pci_id_list (hardware_setup_id : String) (l : PciIdList)
    (b : Bucket (List String)) : Bucket (List String) :=
  l.devices.foldl
    (fun b device => bucketUnionInsert b (idKey l.vendor device) hardware_setup_id) b

/-- `process_usb_id_list`. -/
def process_usb_id_list (hardware_setup_id : String) (l : UsbIdList)
    (b : Bucket (List String)) : Bucket (List String) :=
  l.devices.foldl
    (fun b device => bucketUnionInsert b (idKey l.vendor device) hardware_setup_id) b

/-- Accumulator of the per-setup loop over `driver_options`. -/
structure OptFoldAcc where
  db : GenDb
  st : GenState
  driver_option_ids : List String
  assigned : List String
deriving Repr

/-- The `driver_options` loop of `generate_database_inner`: per option draw a
fresh id from the option serial, union it into
`hardware_kind_to_driver_option_id`, insert it into the per-setup id set and
store the option record.  `assigned` additionally records the drawn ids in
assignment order. -/
def processOptions (hardware_kind : HardwareKind) :
    OptFoldAcc → List DriverOption → OptFoldAcc
  | acc, [] => acc
  | acc, driver_option :: rest =>
    let driver_option_id := Nat.repr acc.st.driver_option_serial
    let st' : GenState :=
      { acc.st with
        driver_option_serial := (acc.st.driver_option_serial + 1) % 2 ^ 64 }
    let db' : GenDb :=
      { acc.db with
        hardware_kind_to_driver_option_id :=
          bucketUnionInsert acc.db.hardware_kind_to_driver_option_id
            hardware_kind.displayString driver_option_id }
    let db'' : GenDb :=
      { db' with
        driver_option_id_to_driver_option :=
          bucketPut db'.driver_option_id_to_driver_option driver_option_id
            driver_option }
    processOptions hardware_kind
      { db := db''
        st := st'
        driver_option_ids := strSetInsert driver_option_id acc.driver_option_ids
        assigned := acc.assigned ++ [driver_option_id] }
      rest

/-- The ids drawn while processing one setup, in input order. -/
structure GenLogEntry where
  setup_id : String
  option_ids : List String
deriving DecidableEq, Repr

/-- The body of the `hardware_setups.iter().for_each(..)` loop of
`generate_database_inner`: draw a fresh setup id, union it into the kind
bucket, store the setup record, flatten the matcher into the pci/usb buckets,
process the options, and store the per-setup option-id set. -/
def processSetup (db : GenDb) (st : GenState) (s : HardwareSetup) :
    (GenDb × GenState) × GenLogEntry :=
  let hardware_setup_id := Nat.repr st.hardware_setup_serial
  let st1 : GenState :=
    { st with hardware_setup_serial := (st.hardware_setup_serial + 1) % 2 ^ 64 }
  let db1 : GenDb :=
    { db with
      hardware_kind_to_hardware_setup_id :=
        bucketUnionInsert db.hardware_kind_to_hardware_setup_id
          s.hardware_kind.displayString hardware_setup_id }
  let db2 : GenDb :=
    { db1 with
      hardware_setup_id_to_hardware_setup :=
        bucketPut db1.hardware_setup_id_to_hardware_setup hardware_setup_id s }
  let db3 : GenDb :=
    match s.hardware_list with
    | .Each inners =>
      inners.foldl
        (fun db inner =>
          match inner with
          | .pci l =>
            { db with
              pci_id_to_hardware_setup_id :=
                process_pci_id_list hardware_setup_id l db.pci_id_to_hardware_setup_id }
          | .usb l =>
            { db with
              usb_id_to_hardware_setup_id :=
                process_usb_id_list hardware_setup_id l db.usb_id_to_hardware_setup_id })
        db2
    | .Pci l =>
      { db2 with
        pci_id_to_hardware_setup_id :=
          process_pci_id_list hardware_setup_id l db2.pci_id_to_hardware_setup_id }
    | .Usb l =>
      { db2 with
        usb_id_to_hardware_setup_id :=
          process_usb_id_list hardware_setup_id l db2.usb_id_to_hardware_setup_id }
  let r := processOptions s.hardware_kind ⟨db3, st1, [], []⟩ s.driver_options
  let db4 : GenDb :=
    { r.db with
      hardware_setup_id_to_driver_option_id :=
        bucketPut r.db.hardware_setup_id_to_driver_option_id hardware_setup_id
          r.driver_option_ids }
  ((db4, r.st), ⟨hardware_setup_id, r.assigned⟩)

/-- The whole generation loop over the catalog, in input order; also returns
the log of assigned ids. -/
def generateLoop (db : GenDb) (st : GenState) :
    List HardwareSetup → (GenDb × GenState) × List GenLogEntry
  | [] => ((db, st), [])
  | s :: rest =>
    let r := processSetup db st s
    let rr := generateLoop r.1.1 r.1.2 rest
    (rr.1, r.2 :: rr.2)

/-- Modelled from the spec: the transactional wrapper of §4.1/§4.2 — jammdb
(the storage engine crate) is not part of this repository.  All writes of
`generate_database_inner` happen inside one write transaction whose view
starts from the committed database file; a failure before `commit()` (a
bucket error or a panicking `put`/decode) drops the transaction, and a failed
`commit()` rolls back, so the visible file changes only on a successful
commit, to the full transaction result. -/
def generateVisibleDb (pre : GenDb) (catalog : List HardwareSetup)
    (st : GenState) (failed_before_commit commit_succeeds : Bool) : GenDb :=
  if failed_before_commit then pre
  else if commit_succeeds then (generateLoop pre st catalog).1.1
  else pre

/-! ### Characterizing the assigned surrogate ids -/

/-- The sequence of ids drawn from a serial counter starting at `a`:
`fetch_add(1, ..)` returns the current value and stores its wrapped
successor. -/
def serialIds : Nat → Nat → List String
  | _, 0 => []
  | a, n + 1 => Nat.repr a :: serialIds ((a + 1) % 2 ^ 64) n

/-- The counter value after `n` draws starting from `a`. -/
def advanceSerial : Nat → Nat → Nat
  | a, 0 => a
  | a, n + 1 => advanceSerial ((a + 1) % 2 ^ 64) n

theorem serialIds_append : ∀ (k t a : Nat),
    serialIds a (k + t) = serialIds a k ++ serialIds (advanceSerial a k) t := by
  intro k
  induction k with
  | zero => intro t a; simp [serialIds, advanceSerial]
  | succ k ih =>
    intro t a
    rw [show k + 1 + t = (k + t) + 1 by omega]
    show Nat.repr a :: serialIds ((a + 1) % 2 ^ 64) (k + t) = _
    rw [ih t ((a + 1) % 2 ^ 64)]
    rfl

theorem serialIds_eq_range : ∀ (n a : Nat), a < 2 ^ 64 →
    serialIds a n = (List.range n).map (fun i => Nat.repr ((a + i) % 2 ^ 64)) := by
  intro n
  induction n with
  | zero => intro a _; rfl
  | succ n ih =>
    intro a ha
    show Nat.repr a :: serialIds ((a + 1) % 2 ^ 64) n = _
    rw [List.range_succ_eq_map, List.map_cons, List.map_map, List.cons_eq_cons]
    refine ⟨?_, ?_⟩
    · rw [Nat.add_zero, Nat.mod_eq_of_lt ha]
    · rw [ih ((a + 1) % 2 ^ 64) (Nat.mod_lt _ (by positivity))]
      apply List.map_congr_left
      intro i _
      simp only [Function.comp_apply]
      rw [Nat.mod_add_mod]
      congr 1
      omega

theorem pairwise_ne_repr_range (a n : Nat) (ha : a < 2 ^ 64) (hn : n ≤ 2 ^ 64) :
    ((List.range n).map fun i => Nat.repr ((a + i) % 2 ^ 64)).Pairwise (· ≠ ·) := by
  rw [List.pairwise_iff_getElem]
  intro i j hi hj hij
  simp only [List.length_map, List.length_range] at hi hj
  simp only [List.getElem_map, List.getElem_range]
  intro hcontra
  have heq : (a + i) % 2 ^ 64 = (a + j) % 2 ^ 64 := repr_injective hcontra
  have hdvd : 2 ^ 64 ∣ (a + j) - (a + i) :=
    (Nat.modEq_iff_dvd' (by omega)).mp heq
  have hsub : (a + j) - (a + i) = j - i := by omega
  rw [hsub] at hdvd
  have := Nat.le_of_dvd (by omega) hdvd
  omega

theorem serialIds_pairwise_ne (a n : Nat) (ha : a < 2 ^ 64) (hn : n ≤ 2 ^ 64) :
    (serialIds a n).Pairwise (· ≠ ·) := by
  rw [serialIds_eq_range n a ha]
  exact pairwise_ne_repr_range a n ha hn

theorem processOptions_spec (k : HardwareKind) (options : List DriverOption) :
    ∀ acc : OptFoldAcc,
      (processOptions k acc options).st.hardware_setup_serial =
          acc.st.hardware_setup_serial ∧
      (processOptions k acc options).st.driver_option_serial =
          advanceSerial acc.st.driver_option_serial options.length ∧
      (processOptions k acc options).assigned =
        acc.assigned ++ serialIds acc.st.driver_option_serial options.length := by
  induction options with
  | nil => intro acc; exact ⟨rfl, rfl, by simp [processOptions, serialIds]⟩
  | cons o rest ih =>
    intro acc
    simp only [processOptions]
    have step : ∀ A : OptFoldAcc,
        A.st.hardware_setup_serial = acc.st.hardware_setup_serial →
        A.st.driver_option_serial = (acc.st.driver_option_serial + 1) % 2 ^ 64 →
        A.assigned = acc.assigned ++ [Nat.repr acc.st.driver_option_serial] →
        (processOptions k A rest).st.hardware_setup_serial =
            acc.st.hardware_setup_serial ∧
        (processOptions k A rest).st.driver_option_serial =
            advanceSerial acc.st.driver_option_serial (o :: rest).length ∧
        (processOptions k A rest).assigned =
          acc.assigned ++ serialIds acc.st.driver_option_serial (o :: rest).length := by
      intro A hA1 hA2 hA3
      obtain ⟨ih1, ih2, ih3⟩ := ih A
      refine ⟨by rw [ih1, hA1], ?_, ?_⟩
      · rw [ih2, hA2]
        rfl
      · rw [ih3, hA3, hA2]
        show _ = acc.assigned ++ (Nat.repr acc.st.driver_option_serial ::
          serialIds ((acc.st.driver_option_serial + 1) % 2 ^ 64) rest.length)
        rw [List.append_assoc, List.singleton_append]
    exact step _ rfl rfl rfl

theorem processSetup_spec (db : GenDb) (st : GenState) (s : HardwareSetup) :
    (processSetup db st s).1.2.hardware_setup_serial =
        (st.hardware_setup_serial + 1) % 2 ^ 64 ∧
    (processSetup db st s).1.2.driver_option_serial =
        advanceSerial st.driver_option_serial s.driver_options.length ∧
    (processSetup db st s).2.setup_id = Nat.repr st.hardware_setup_serial ∧
    (processSetup db st s).2.option_ids =
      serialIds st.driver_option_serial s.driver_options.length := by
  obtain ⟨h1, h2, h3⟩ := processOptions_spec s.hardware_kind s.driver_options
    ⟨_, { st with hardware_setup_serial := (st.hardware_setup_serial + 1) % 2 ^ 64 },
      [], []⟩
  exact ⟨h1, h2, rfl, h3⟩

/-- Total number of driver options in a catalog. -/
def catalogOptionCount (catalog : List HardwareSetup) : Nat :=
  (catalog.map fun s => s.driver_options.length).sum

theorem generateLoop_ids (catalog : List HardwareSetup) :
    ∀ (db : GenDb) (st : GenState),
      ((generateLoop db st catalog).2.map (·.setup_id) =
        serialIds st.hardware_setup_serial catalog.length) ∧
      ((generateLoop db st catalog).2.flatMap (·.option_ids) =
        serialIds st.driver_option_serial (catalogOptionCount catalog)) := by
  induction catalog with
  | nil => intro db st; exact ⟨rfl, rfl⟩
  | cons s rest ih =>
    intro db st
    obtain ⟨p1, p2, p3, p4⟩ := processSetup_spec db st s
    obtain ⟨ih1, ih2⟩ := ih (processSetup db st s).1.1 (processSetup db st s).1.2
    constructor
    · show (processSetup db st s).2.setup_id ::
        (generateLoop (processSetup db st s).1.1 (processSetup db st s).1.2
          rest).2.map (·.setup_id) = _
      rw [ih1, p3, p1, List.length_cons]
      rfl
    · show (processSetup db st s).2.option_ids ++
        (generateLoop (processSetup db st s).1.1 (processSetup db st s).1.2
          rest).2.flatMap (·.option_ids) = _
      rw [ih2, p4, p2]
      have hcount : catalogOptionCount (s :: rest) =
          s.driver_options.length + catalogOptionCount rest := by
        simp [catalogOptionCount]
      rw [hcount, serialIds_append]

/-- C5: within one generation run (one pass of the generation loop over the
catalog, from any reachable counter state), the surrogate setup ids assigned
to setups are pairwise distinct and the surrogate option ids assigned to
driver options are pairwise distinct.  The bounds reflect the `usize`
capacity of the serial counters. -/
theorem C5_surrogate_ids_distinct (catalog : List HardwareSetup) (db : GenDb)
    (st : GenState) (h1 : st.hardware_setup_serial < 2 ^ 64)
    (h2 : st.driver_option_serial < 2 ^ 64) (h3 : catalog.length ≤ 2 ^ 64)
    (h4 : catalogOptionCount catalog ≤ 2 ^ 64) :
    ((generateLoop db st catalog).2.map (·.setup_id)).Pairwise (· ≠ ·) ∧
    ((generateLoop db st catalog).2.flatMap (·.option_ids)).Pairwise (· ≠ ·) := by
  obtain ⟨e1, e2⟩ := generateLoop_ids catalog db st
  rw [e1, e2]
  exact ⟨serialIds_pairwise_ne _ _ h1 h3, serialIds_pairwise_ne _ _ h2 h4⟩

/-- C5, witness: the distinctness applied to a concrete two-setup catalog
starting at process start. -/
theorem C5_witness :
    ((generateLoop emptyGenDb processStart [taggedSetup, twoOptionSetup]).2.map
      (·.setup_id)).Pairwise (· ≠ ·) ∧
    ((generateLoop emptyGenDb processStart [taggedSetup, twoOptionSetup]).2.flatMap
      (·.option_ids)).Pairwise (· ≠ ·) :=
  C5_surrogate_ids_distinct [taggedSetup, twoOptionSetup] emptyGenDb processStart
    (by decide) (by decide) (by decide) (by decide)

/-- C4, evaluation at the failing input: the serial counters are `static`
(process-wide), so a second generation run on the same catalog in the same
process resumes from the first run's final counters and assigns different
surrogate ids — refuting "no state carried over from earlier generation runs
in the same process, identical ids on re-running".  Run 1 on the one-setup
catalog assigns setup id "1" and option id "1"; run 2 on the same catalog and
the same input order assigns "2" and "2". -/
theorem C4_static_counters_break_reproducibility :
    ((generateLoop emptyGenDb processStart [taggedSetup]).2.map (·.setup_id) = ["1"]) ∧
    ((generateLoop emptyGenDb processStart [taggedSetup]).2.flatMap (·.option_ids) = ["1"]) ∧
    ((generateLoop emptyGenDb
        (generateLoop emptyGenDb processStart [taggedSetup]).1.2
        [taggedSetup]).2.map (·.setup_id) = ["2"]) ∧
    ((generateLoop emptyGenDb
        (generateLoop emptyGenDb processStart [taggedSetup]).1.2
        [taggedSetup]).2.flatMap (·.option_ids) = ["2"]) := by
  decide

/-- C8: generation is atomic with respect to the visible database — if the
run fails before `commit()` or the commit itself fails, the visible file is
exactly its pre-transaction state; only a successful commit makes the whole
transaction's writes (all buckets together) visible. -/
theorem C8_generation_atomic (pre : GenDb) (catalog : List HardwareSetup)
    (st : GenState) (failed_before_commit commit_succeeds : Bool) :
    generateVisibleDb pre catalog st failed_before_commit commit_succeeds =
      if failed_before_commit = false ∧ commit_succeeds = true then
        (generateLoop pre st catalog).1.1
      else pre := by
  cases failed_before_commit <;> cases commit_succeeds <;>
    simp [generateVisibleDb]

/-- C9, counterexample: the key written for the flattened pair
(vendor 0x10de, device 0x1381) is the 9-byte decimal string "282989441", not
the fixed 4-byte big-endian encoding [0x10, 0xde, 0x13, 0x81] of the packed
u32. -/
theorem C9_counterexample :
    idKey 0x10de 0x1381 = "282989441" ∧
    (idKey 0x10de 0x1381).data.map Char.toNat ≠ [0x10, 0xde, 0x13, 0x81] ∧
    ((idKey 0x10de 0x1381).data.map Char.toNat).length = 9 := by
  refine ⟨by decide, by decide, by decide⟩

/-- C9 (amended): for every (vendor, device) pair flattened during indexing
(both `u16`, hence below `2 ^ 16`), the bucket key written by
`process_pci_id_list` / `process_usb_id_list` is the decimal-string rendering
of the packed u32 value `vendor * 2 ^ 16 + device` — not a 4-byte big-endian
encoding. -/
theorem C9_key_is_decimal_string_of_packed (vendor device : Nat)
    (hv : vendor < 2 ^ 16) (hd : device < 2 ^ 16) :
    idKey vendor device = Nat.repr (vendor * 2 ^ 16 + device) := by
  unfold idKey
  rw [packU32_eq vendor device hv hd]

/-- C9, witness: the amended key equation at the concrete pair. -/
theorem C9_witness :
    idKey 0x10de 0x1381 = Nat.repr (0x10de * 2 ^ 16 + 0x1381) :=
  C9_key_is_decimal_string_of_packed 0x10de 0x1381 (by decide) (by decide)

/-! ### Reading the option index (`src/actions/list.rs`) -/

/-- A byte value stored in `hardware_kind_to_driver_option_id_bucket`,
represented by its decoding outcomes under the two `rmp_serde` decoders the
source applies to such values: as a `BTreeSet<String>` of option ids
(`all_driver_packages`, with `.unwrap()`), and as a `HardwareKind`
(the `kv_pairs` collection path, with `.ok()`).  `none` means the bytes do
not decode at that type. -/
structure StoredIdsVal where
  asOptionIds : Option (List String)
  asHardwareKind : Option HardwareKind
deriving DecidableEq, Repr

/-- The read-side view of the database for `all_driver_packages`: each
expected bucket may be missing (`none`), and each option record is
represented by its decoding outcome as a `DriverOption`. -/
structure ListDb where
  hardware_kind_to_driver_option_id : Option (Bucket StoredIdsVal)
  driver_option_id_to_driver_option : Option (Bucket (Option DriverOption))
deriving DecidableEq, Repr

/-- Errors surfaced by the read path: `BucketNotFound` from `get_bucket` on a
read transaction (surfaced as a typed `Error::Database`), and the abort of the
`.unwrap()` on an ids value that fails to decode. -/
inductive DbError where
  | bucketNotFound
  | decodePanic
deriving DecidableEq, Repr

/-- Declaration rank of `HardwareKind` (its derived `Ord`). -/
def HardwareKind.rank : HardwareKind → Nat
  | .Graphics => 0
  | .Ethernet => 1
  | .Wireless => 2
  | .Audio => 3

/-- `grouped_packages.entry(kind).or_default().extend(packages)` on a
`BTreeMap<HardwareKind, BTreeSet<String>>` carried as a kind-sorted
association list of finite sets. -/
def extendPackages (m : List (HardwareKind × Finset String)) (k : HardwareKind)
    (pkgs : List String) : List (HardwareKind × Finset String) :=
  match m with
  | [] => [(k, pkgs.toFinset)]
  | (k', s) :: rest =>
    if k = k' then (k', s ∪ pkgs.toFinset) :: rest
    else if k.rank < k'.rank then (k, pkgs.toFinset) :: (k', s) :: rest
    else (k', s) :: extendPackages rest k pkgs

/-- The `process_hardware_kind` fold of `all_driver_packages` in
`src/actions/list.rs`: per kind, read the ids value (a kind with no entry
resets the accumulator to a fresh empty map — the `else` arm returns
`BTreeMap::new()`), decode it (`unwrap` aborts on failure), resolve each
option id through the record bucket with `filter_map(.. .ok())` — silently
dropping missing and undecodable records — and keep options whose tags
contain every filter tag. -/
def processKinds (kindBucket : Bucket StoredIdsVal)
    (optionBucket : Bucket (Option DriverOption)) (filter_tags : List String) :
    List HardwareKind → List (HardwareKind × Finset String) →
      Except DbError (List (HardwareKind × Finset String))
  | [], grouped => .ok grouped
  | k :: ks, grouped =>
    match bucketGet kindBucket k.displayString with
    | none => processKinds kindBucket optionBucket filter_tags ks []
    | some stored =>
      match stored.asOptionIds with
      | none => .error .decodePanic
      | some ids =>
        let opts := ids.filterMap fun option_id =>
          (bucketGet optionBucket option_id).bind fun r => r
        let grouped' := opts.foldl
          (fun g o =>
            if filter_tags.all (fun tag => o.tags.contains tag) then
              extendPackages g k o.packages
            else g)
          grouped
        processKinds kindBucket optionBucket filter_tags ks grouped'

/-- `all_driver_packages` from `src/actions/list.rs`: open the two buckets
(`get_bucket` fails on a read transaction when a bucket is absent), then
process either the single requested kind or every kind found by decoding the
ids bucket's values as `HardwareKind`s (collected into a sorted set). -/
def all_driver_packages (optional_hardware : Option HardwareKind)
    (filter_tags : List String) (db : ListDb) :
    Except DbError (List (HardwareKind × Finset String)) :=
  match db.hardware_kind_to_driver_option_id with
  | none => .error .bucketNotFound
  | some kindBucket =>
    match db.driver_option_id_to_driver_option with
    | none => .error .bucketNotFound
    | some optionBucket =>
      match optional_hardware with
      | some hardware_kind =>
        processKinds kindBucket optionBucket filter_tags [hardware_kind] []
      | none =>
        processKinds kindBucket optionBucket filter_tags
          ([HardwareKind.Graphics, .Ethernet, .Wireless, .Audio].filter fun k =>
            (kindBucket.filterMap fun kv => kv.2.asHardwareKind).contains k)
          []

/-- A store whose graphics index references option id "1" while the record
bucket holds no record for it: an expected record is missing. -/
def missingRecordDb : ListDb :=
  { hardware_kind_to_driver_option_id :=
      some [("graphics", ⟨some ["1"], none⟩)]
    driver_option_id_to_driver_option := some [] }

/-- C7, counterexample: the graphics index references option id "1" but the
record bucket holds no such record — an expected record is missing — yet the
query is answered with `ok` and an empty mapping instead of failing with a
StorageCorrupt-class error: the `filter_map(.. .ok())` silently skips the
missing record. -/
theorem C7_counterexample :
    all_driver_packages (some .Graphics) [] missingRecordDb = .ok [] := by
  rfl

theorem processKinds_ok (kindBucket : Bucket StoredIdsVal)
    (optionBucket : Bucket (Option DriverOption)) (filter_tags : List String)
    (hdec : ∀ kv ∈ kindBucket, kv.2.asOptionIds ≠ none) :
    ∀ (ks : List HardwareKind) (grouped : List (HardwareKind × Finset String)),
      ∃ m, processKinds kindBucket optionBucket filter_tags ks grouped = .ok m := by
  intro ks
  induction ks with
  | nil => intro grouped; exact ⟨grouped, rfl⟩
  | cons k rest ih =>
    intro grouped
    have step : processKinds kindBucket optionBucket filter_tags (k :: rest) grouped =
        match bucketGet kindBucket k.displayString with
        | none => processKinds kindBucket optionBucket filter_tags rest []
        | some stored =>
          match stored.asOptionIds with
          | none => .error .decodePanic
          | some ids =>
            processKinds kindBucket optionBucket filter_tags rest
              ((ids.filterMap fun option_id =>
                  (bucketGet optionBucket option_id).bind fun r => r).foldl
                (fun g o =>
                  if filter_tags.all (fun tag => o.tags.contains tag) then
                    extendPackages g k o.packages
                  else g)
                grouped) := rfl
    rw [step]
    cases hg : bucketGet kindBucket k.displayString with
    | none => exact ih []
    | some stored =>
      have hne : stored.asOptionIds ≠ none := by
        unfold bucketGet at hg
        cases hf : kindBucket.find? (fun kv => kv.1 == k.displayString) with
        | none => rw [hf] at hg; exact absurd hg (by simp)
        | some kv =>
          rw [hf] at hg
          simp at hg
          have hkv := List.mem_of_find?_eq_some hf
          have := hdec kv hkv
          rw [hg] at this
          exact this
      show ∃ m, (match stored.asOptionIds with
        | none => (Except.error DbError.decodePanic :
            Except DbError (List (HardwareKind × Finset String)))
        | some ids =>
          processKinds kindBucket optionBucket filter_tags rest
            ((ids.filterMap fun option_id =>
                (bucketGet optionBucket option_id).bind fun r => r).foldl
              (fun (g : List (HardwareKind × Finset String)) (o : DriverOption) =>
                if filter_tags.all (fun tag => o.tags.contains tag) then
                  extendPackages g k o.packages
                else g)
              grouped)) = .ok m
      cases hs : stored.asOptionIds with
      | none => exact absurd hs hne
      | some ids => exact ih _

/-- C7 (amended): a missing expected bucket aborts the whole query with a
typed error and no result mapping; but a missing or undecodable driver-option
record does not — whenever both buckets are present and every ids value
decodes, the query returns an `ok` mapping, with unresolvable option ids
silently skipped (see the counterexample for a skipped record), and an
undecodable ids value aborts via `unwrap` rather than a typed error.  Only a
present identifier with no index entry contributes nothing by design. -/
theorem C7_missing_bucket_aborts (okind : Option HardwareKind)
    (filter_tags : List String) (db : ListDb) :
    (db.hardware_kind_to_driver_option_id = none →
      all_driver_packages okind filter_tags db = .error .bucketNotFound) ∧
    (db.driver_option_id_to_driver_option = none →
      all_driver_packages okind filter_tags db = .error .bucketNotFound) ∧
    (∀ kindBucket optionBucket,
      db.hardware_kind_to_driver_option_id = some kindBucket →
      db.driver_option_id_to_driver_option = some optionBucket →
      (∀ kv ∈ kindBucket, kv.2.asOptionIds ≠ none) →
      ∃ m, all_driver_packages okind filter_tags db = .ok m) := by
  refine ⟨?_, ?_, ?_⟩
  · intro h
    unfold all_driver_packages
    rw [h]
  · intro h
    unfold all_driver_packages
    cases hk : db.hardware_kind_to_driver_option_id with
    | none => rfl
    | some kindBucket => rw [h]
  · intro kindBucket optionBucket h1 h2 hdec
    unfold all_driver_packages
    rw [h1, h2]
    cases okind with
    | some k => exact processKinds_ok kindBucket optionBucket filter_tags hdec [k] []
    | none => exact processKinds_ok kindBucket optionBucket filter_tags hdec _ []

/-- C7, witness: the amended abort behaviour at a concrete store with the ids
bucket missing. -/
theorem C7_witness :
    all_driver_packages (some .Graphics) [] ⟨none, some []⟩ =
      .error .bucketNotFound :=
  (C7_missing_bucket_aborts (some .Graphics) [] ⟨none, some []⟩).1 rfl

/-! ### Install selection (`src/actions/install.rs`, `src/data/database.rs`) -/

/-- `ConfigurationFormat` from `src/data/database.rs`. -/
inductive ConfigurationFormat where
  | Ini
  | Json
  | Yaml
  | Toml
  | Xml
deriving DecidableEq, Repr

/-- Declaration rank of `ConfigurationFormat` (its derived `Ord`). -/
def ConfigurationFormat.rank : ConfigurationFormat → Nat
  | .Ini => 0
  | .Json => 1
  | .Yaml => 2
  | .Toml => 3
  | .Xml => 4

/-- Declaration rank of `ScriptKind` (its derived `Ord` in
`src/data/database.rs`). -/
def ScriptKind.rank : ScriptKind → Nat
  | .Python => 0
  | .JavaScript => 1
  | .Shell => 2

/-- `ConfigurationRecord` from `src/data/database.rs`; the `derivative`
attributes exclude `entry_map` from the derived ordering. -/
structure ConfigurationRecord where
  format : ConfigurationFormat
  path : String
  entry_map : List (String × String)
deriving DecidableEq, Repr

/-- `Script` from `src/data/database.rs`. -/
structure ScriptRecord where
  path : String
  script_kind : ScriptKind
deriving DecidableEq, Repr

/-- `DriverRecord` from `src/data/database.rs`. -/
structure DriverRecord where
  order_of_priority : Nat
  name : String
  description : String
  tags : List String
  packages : List String
  configurations : List ConfigurationRecord
  pre_install_script : Option ScriptRecord
  post_install_script : Option ScriptRecord
deriving DecidableEq, Repr

/-- Rust's derived lexicographic ordering on sequences (`Vec`, `BTreeSet`). -/
def cmpList (cmp : α → α → Ordering) : List α → List α → Ordering
  | [], [] => .eq
  | [], _ :: _ => .lt
  | _ :: _, [] => .gt
  | a :: as, b :: bs => (cmp a b).then (cmpList cmp as bs)

/-- Rust's derived ordering on `Option` (`None < Some`). -/
def cmpOption (cmp : α → α → Ordering) : Option α → Option α → Ordering
  | none, none => .eq
  | none, some _ => .lt
  | some _, none => .gt
  | some a, some b => cmp a b

/-- The derived `Ord` of `ConfigurationRecord` (`entry_map` ignored). -/
def ConfigurationRecord.cmp (a b : ConfigurationRecord) : Ordering :=
  (compare a.format.rank b.format.rank).then (compare a.path b.path)

/-- The derived `Ord` of the database `Script`. -/
def ScriptRecord.cmp (a b : ScriptRecord) : Ordering :=
  (compare a.path b.path).then (compare a.script_kind.rank b.script_kind.rank)

/-- The derived `Ord` of `DriverRecord`: lexicographic in field declaration
order, `order_of_priority` first. -/
def DriverRecord.cmp (a b : DriverRecord) : Ordering :=
  (compare a.order_of_priority b.order_of_priority).then
    ((compare a.name b.name).then
      ((compare a.description b.description).then
        ((cmpList compare a.tags b.tags).then
          ((cmpList compare a.packages b.packages).then
            ((cmpList ConfigurationRecord.cmp a.configurations b.configurations).then
              ((cmpOption ScriptRecord.cmp a.pre_install_script b.pre_install_script).then
                (cmpOption ScriptRecord.cmp a.post_install_script
                  b.post_install_script)))))))

/-- The package selection of `install_inner` in `src/actions/install.rs`:
`relevant_driver_records.iter().next()` takes the first element of the
`BTreeSet` (its minimum in `DriverRecord` order), `.expect(..)` aborts when
the set is empty, and `.packages` is what is handed to the package manager.
The set is carried as its ascending iteration order. -/
def install_packages_to_install (relevant_driver_records : List DriverRecord) :
    Option (List String) :=
  relevant_driver_records.head?.map (·.packages)

theorem DriverRecord.cmp_lt_le (a b : DriverRecord)
    (h : DriverRecord.cmp a b = .lt) :
    a.order_of_priority ≤ b.order_of_priority := by
  unfold DriverRecord.cmp at h
  cases hc : compare a.order_of_priority b.order_of_priority with
  | lt => exact Nat.le_of_lt (Nat.compare_eq_lt.mp hc)
  | eq => exact Nat.le_of_eq (Nat.compare_eq_eq.mp hc)
  | gt => rw [hc] at h; exact absurd h (by simp [Ordering.then])

/-- C10: when the matching record set is nonempty (install succeeds), the
package list handed to the package manager is that of the set's first
element, whose `order_of_priority` is minimal among all matching records,
because the `BTreeSet` iterates in the derived lexicographic order whose
first component is `order_of_priority`. -/
theorem C10_install_takes_minimal_priority (records : List DriverRecord)
    (hsorted : records.Pairwise (fun a b => DriverRecord.cmp a b = .lt))
    (r : DriverRecord) (rest : List DriverRecord) (heq : records = r :: rest) :
    install_packages_to_install records = some r.packages ∧
    ∀ x ∈ records, r.order_of_priority ≤ x.order_of_priority := by
  subst heq
  refine ⟨rfl, ?_⟩
  intro x hx
  rcases List.mem_cons.mp hx with hx | hx
  · exact Nat.le_of_eq (by rw [hx])
  · exact DriverRecord.cmp_lt_le r x ((List.pairwise_cons.mp hsorted).1 x hx)

/-- A concrete low-priority record. -/
def recLow : DriverRecord :=
  { order_of_priority := 1, name := "low", description := "", tags := [],
    packages := ["pkg-low"], configurations := [], pre_install_script := none,
    post_install_script := none }

/-- A concrete high-priority record. -/
def recHigh : DriverRecord :=
  { order_of_priority := 2, name := "high", description := "", tags := [],
    packages := ["pkg-high"], configurations := [], pre_install_script := none,
    post_install_script := none }

/-- C10, witness: on the concrete two-record set the installer picks the
record with the lower `order_of_priority` value. -/
theorem C10_witness :
    install_packages_to_install [recLow, recHigh] = some recLow.packages ∧
    recLow.order_of_priority ≤ recHigh.order_of_priority :=
  ⟨(C10_install_takes_minimal_priority [recLow, recHigh] (by decide) recLow
      [recHigh] rfl).1,
   (C10_install_takes_minimal_priority [recLow, recHigh] (by decide) recLow
      [recHigh] rfl).2 recHigh (by decide)⟩

end Adm
